import Mathlib

/-!
Verification of the concurrency core of the Multiagent-via-A2A repository:
the topic-addressed message broker (src/core/message_broker.py) and the
WebSocket connection manager (src/server/websocket_handler.py).

Modelling conventions of the shallow embedding:
- Python dictionaries are association lists (List (String x value)); Python
  dict assignment d[k] = v keeps the position of an existing key, which
  adictSet mirrors by replacing the first matching entry in place.
- asyncio.Queue is a Lean list with the front as the oldest element; the
  bounded put_nowait raises QueueFull exactly when 0 < maxsize <= qsize.
- Clock readings (time.time()) and object identities (id(message)) are
  explicit integer inputs of the operations that read them, because two
  calls may observe equal clock values.
- Subscriber callbacks, asyncio tasks and websocket transports are numeric
  identifiers; calling conventions (raising or not) are boolean inputs.
- All operations are total Lean functions returning their Python return
  value paired with the successor state; a Python exception path that is
  caught inside the modelled function is folded into that return value.
-/

namespace A2A

/-- Lookup in an association list modelling a Python dict: returns the value
of the first entry whose key matches. -/
def alookup {α : Type} : List (String × α) → String → Option α
  | [], _ => none
  | (k, v) :: rest, key => if k = key then some v else alookup rest key

/-- Lookup with a default, modelling Python dict.get(key, default). -/
def alookupD {α : Type} (m : List (String × α)) (k : String) (d : α) : α :=
  (alookup m k).getD d

/-- Python dict assignment d[k] = v: replace the entry in place when the key
exists, otherwise append a fresh entry at the end. -/
def adictSet {α : Type} : List (String × α) → String → α → List (String × α)
  | [], k, v => [(k, v)]
  | (k1, v1) :: rest, k, v =>
    if k1 = k then (k, v) :: rest else (k1, v1) :: adictSet rest k v

/-- Python del d[k] (guarded by membership in the source, so removal of an
absent key is a no-op here as well). -/
def aremoveKey {α : Type} : List (String × α) → String → List (String × α)
  | [], _ => []
  | (k1, v1) :: rest, k =>
    if k1 = k then aremoveKey rest k else (k1, v1) :: aremoveKey rest k

/-- The key list of an association list. -/
def keysOf {α : Type} (m : List (String × α)) : List String :=
  m.map Prod.fst

/-- Values carried by broker messages: the producer payload entries and the
broker metadata (string topic and id, integer clock reading). -/
inductive Val
  | str (s : String)
  | num (n : Int)
  | boolean (b : Bool)
deriving DecidableEq

/-- A message is an open key-value map, as accepted by MessageBroker.publish. -/
abbrev Msg := List (String × Val)

/-- Broker message id, from message_broker.py line 119:
the f-string topic_time_objectid built from the topic, the time.time()
reading and id(message). -/
def mkId (topic : String) (t : Int) (oid : Nat) : String :=
  topic ++ "_" ++ toString t ++ "_" ++ toString oid

/-- The three broker-assigned metadata keys, reserved per spec section 6. -/
def reservedKeys : List String :=
  ["_broker_timestamp", "_broker_topic", "_broker_id"]

/-- Message enrichment from message_broker.py lines 115-120: the dict literal
keeps the payload entries and then sets the three reserved keys in order,
overriding caller-supplied values of those keys. -/
def enrich (m : Msg) (topic : String) (t : Int) (oid : Nat) : Msg :=
  adictSet
    (adictSet (adictSet m "_broker_timestamp" (Val.num t)) "_broker_topic" (Val.str topic))
    "_broker_id" (Val.str (mkId topic t oid))

/-- The broker statistics dictionary self.message_stats of message_broker.py
lines 27-33. -/
structure Stats where
  total_published : Nat
  total_processed : Nat
  total_failed : Nat
  topics_created : Nat
  total_consumed : Nat
deriving DecidableEq

/-- Componentwise order on the statistics counters. -/
def Stats.le (a b : Stats) : Prop :=
  a.total_published ≤ b.total_published ∧ a.total_processed ≤ b.total_processed ∧
  a.total_failed ≤ b.total_failed ∧ a.topics_created ≤ b.topics_created ∧
  a.total_consumed ≤ b.total_consumed

/-- The MessageBroker state (message_broker.py lines 17-33): the four
per-topic dictionaries, the configuration, the running flag, the broker task
list and the statistics.  next_task is a fresh-identifier source standing for
asyncio task allocation. -/
structure BrokerState where
  topics : List (String × List Msg)
  subscribers : List (String × List Nat)
  message_handlers : List (String × List Nat)
  consumers : List (String × List Nat)
  max_queue_size : Nat
  running : Bool
  broker_tasks : List Nat
  next_task : Nat
  message_stats : Stats
deriving DecidableEq

/-- MessageBroker._ensure_topic_exists (lines 95-103): when the topic is not a
key of self.topics, all four per-topic dictionaries get the key set to a fresh
empty value (note that this assignment overwrites any entry the topic already
had in subscribers, message_handlers or consumers) and topics_created is
incremented. -/
def ensure_topic_exists (st : BrokerState) (topic : String) : BrokerState :=
  if (alookup st.topics topic).isSome then st
  else
    { st with
      topics := adictSet st.topics topic [],
      subscribers := adictSet st.subscribers topic [],
      message_handlers := adictSet st.message_handlers topic [],
      consumers := adictSet st.consumers topic [],
      message_stats :=
        { st.message_stats with topics_created := st.message_stats.topics_created + 1 } }

/-- MessageBroker._ensure_topic_processing (lines 237-250): when the topic has
no active processing task, a new dispatch task is created and recorded both in
message_handlers and in the broker task list.  The body has no await, so on
the single event loop it runs atomically; modelled task identifiers stand for
not-yet-finished tasks. -/
def ensure_topic_processing (st : BrokerState) (topic : String) : BrokerState :=
  if (alookupD st.message_handlers topic []).isEmpty then
    { st with
      message_handlers :=
        adictSet st.message_handlers topic
          (alookupD st.message_handlers topic [] ++ [st.next_task]),
      broker_tasks := st.broker_tasks ++ [st.next_task],
      next_task := st.next_task + 1 }
  else st

/-- MessageBroker.publish (lines 105-147).  The clock reading t and the
payload object identity oid are explicit inputs.  Returns the Python boolean
result and the successor state; the QueueFull exception of put_nowait is the
third branch. -/
def publish (st : BrokerState) (topic : String) (m : Msg) (t : Int) (oid : Nat) :
    Bool × BrokerState :=
  if st.running = false then (false, st)
  else if (alookupD (ensure_topic_exists st topic).subscribers topic []).isEmpty
        && (alookupD (ensure_topic_exists st topic).consumers topic []).isEmpty then
    (false, ensure_topic_exists st topic)
  else if 0 < st.max_queue_size ∧
      st.max_queue_size ≤ (alookupD (ensure_topic_exists st topic).topics topic []).length then
    (false, ensure_topic_exists st topic)
  else
    (true,
      ensure_topic_processing
        { ensure_topic_exists st topic with
          topics :=
            adictSet (ensure_topic_exists st topic).topics topic
              (alookupD (ensure_topic_exists st topic).topics topic []
                ++ [enrich m topic t oid]),
          message_stats :=
            { (ensure_topic_exists st topic).message_stats with
              total_published :=
                (ensure_topic_exists st topic).message_stats.total_published + 1 } }
        topic)

/-- MessageBroker.subscribe (lines 334-359), synchronous effects only: the
calls it schedules with create_task (_ensure_topic_exists and
_ensure_topic_processing) run later on the event loop and are separate
operations of the model. -/
def subscribe (st : BrokerState) (topic : String) (cb : Nat) : Bool × BrokerState :=
  if st.running = false then (false, st)
  else
    if cb ∈ alookupD st.subscribers topic [] then (false, st)
    else
      (true,
        { st with
          subscribers :=
            adictSet st.subscribers topic (alookupD st.subscribers topic [] ++ [cb]) })

/-- MessageBroker.unsubscribe (lines 361-373); note the source has no running
check here.  list.remove drops the first occurrence. -/
def unsubscribe (st : BrokerState) (topic : String) (cb : Nat) : Bool × BrokerState :=
  match alookup st.subscribers topic with
  | none => (false, st)
  | some lst =>
    if cb ∈ lst then
      (true, { st with subscribers := adictSet st.subscribers topic (lst.erase cb) })
    else (false, st)

/-- MessageBroker.consume_one (lines 207-235): ensures the topic exists, then
waits on the queue; an empty queue at the timeout yields None.  It never
touches self.consumers. -/
def consume_one (st : BrokerState) (topic : String) : Option Msg × BrokerState :=
  if st.running = false then (none, st)
  else
    match alookupD (ensure_topic_exists st topic).topics topic [] with
    | [] => (none, ensure_topic_exists st topic)
    | m :: rest =>
      (some m,
        { ensure_topic_exists st topic with
          topics := adictSet (ensure_topic_exists st topic).topics topic rest,
          message_stats :=
            { (ensure_topic_exists st topic).message_stats with
              total_consumed :=
                (ensure_topic_exists st topic).message_stats.total_consumed + 1 } })

/-- Setup phase of MessageBroker.consume (lines 149-168): ensure the topic and
register the current task identifier in self.consumers. -/
def consume_begin (st : BrokerState) (topic : String) (tid : Nat) : Bool × BrokerState :=
  if st.running = false then (false, st)
  else
    (true,
      { ensure_topic_exists st topic with
        consumers :=
          adictSet (ensure_topic_exists st topic).consumers topic
            (alookupD (ensure_topic_exists st topic).consumers topic [] ++ [tid]) })

/-- One iteration of the MessageBroker.consume loop (lines 170-197): take the
next queued message and bump total_consumed, or observe a timeout. -/
def consume_next (st : BrokerState) (topic : String) : Option Msg × BrokerState :=
  if st.running = false then (none, st)
  else
    match alookupD st.topics topic [] with
    | [] => (none, st)
    | m :: rest =>
      (some m,
        { st with
          topics := adictSet st.topics topic rest,
          message_stats :=
            { st.message_stats with
              total_consumed := st.message_stats.total_consumed + 1 } })

/-- The five pre-created topics of InternalMessageType (lines 10-15), whose
enum values are the strings shown. -/
def internalTopics : List String :=
  ["InternalMessageType.USER_QUERY", "InternalMessageType.QUERY_RESPONSE",
   "InternalMessageType.SYSTEM_STATUS", "InternalMessageType.AGENT_STATUS",
   "InternalMessageType.HEARTBEAT"]

/-- MessageBroker.start (lines 35-48): idempotent; pre-creates the standard
topics. -/
def start (st : BrokerState) : BrokerState :=
  if st.running then st
  else internalTopics.foldl ensure_topic_exists { st with running := true }

/-- MessageBroker.stop (lines 50-93): a second call returns at the running
check; otherwise tasks are cancelled and all per-topic structures cleared.
self.message_stats is never touched. -/
def stop (st : BrokerState) : BrokerState :=
  if st.running = false then st
  else
    { st with
      running := false,
      topics := [],
      subscribers := [],
      message_handlers := [],
      consumers := [],
      broker_tasks := [] }

/-- Result of one entry of the asyncio.gather in _process_message
(line 308): a returned value or a captured exception. -/
inductive GatherResult
  | value (b : Bool)
  | exc
deriving DecidableEq

/-- The isinstance(result, Exception) test of line 311. -/
def isExceptionResult : GatherResult → Bool
  | .exc => true
  | .value _ => false

/-- MessageBroker._call_subscriber (lines 322-332): the callback runs inside
try/except, so a raising callback produces the return value False and a
normal callback produces True; no exception ever escapes to the gather. -/
def call_subscriber (raises : Bool) : GatherResult :=
  if raises then GatherResult.value false else GatherResult.value true

/-- The tallying part of MessageBroker._process_message (lines 295-320):
given, for each subscriber, whether its callback raises, produce the pair
(successful, failed) that is added to total_processed and total_failed. -/
def process_message_tally (outcomes : List Bool) : Nat × Nat :=
  ((((outcomes.map call_subscriber).filter (fun r => !isExceptionResult r)).length),
   (outcomes.map call_subscriber).length
     - ((outcomes.map call_subscriber).filter (fun r => !isExceptionResult r)).length)

/-- Statistics effect of one _process_message call on the broker state. -/
def apply_process_message (st : BrokerState) (outcomes : List Bool) : BrokerState :=
  { st with
    message_stats :=
      { st.message_stats with
        total_processed := st.message_stats.total_processed + (process_message_tally outcomes).1,
        total_failed := st.message_stats.total_failed + (process_message_tally outcomes).2 } }

/-- One broker operation, for stating properties quantified over every
modelled entry point of MessageBroker. -/
inductive BrokerOp
  | startOp
  | stopOp
  | ensureTopicOp (topic : String)
  | publishOp (topic : String) (m : Msg) (t : Int) (oid : Nat)
  | subscribeOp (topic : String) (cb : Nat)
  | unsubscribeOp (topic : String) (cb : Nat)
  | consumeOneOp (topic : String)
  | consumeBeginOp (topic : String) (tid : Nat)
  | consumeNextOp (topic : String)
  | processMessageOp (outcomes : List Bool)
  | processErrorOp

/-- State effect of one broker operation; processErrorOp is the
per-iteration exception handler of _process_topic_messages (line 288). -/
def brokerStep (st : BrokerState) : BrokerOp → BrokerState
  | .startOp => start st
  | .stopOp => stop st
  | .ensureTopicOp topic => ensure_topic_exists st topic
  | .publishOp topic m t oid => (publish st topic m t oid).2
  | .subscribeOp topic cb => (subscribe st topic cb).2
  | .unsubscribeOp topic cb => (unsubscribe st topic cb).2
  | .consumeOneOp topic => (consume_one st topic).2
  | .consumeBeginOp topic tid => (consume_begin st topic tid).2
  | .consumeNextOp topic => (consume_next st topic).2
  | .processMessageOp outcomes => apply_process_message st outcomes
  | .processErrorOp =>
    { st with
      message_stats :=
        { st.message_stats with total_failed := st.message_stats.total_failed + 1 } }

/-- The ConnectionManager state (websocket_handler.py lines 11-19): websocket
transports and heartbeat tasks are numeric identifiers, heartbeat timestamps
are integer clock readings. -/
structure CMState where
  active_connections : List (String × Nat)
  user_heartbeats : List (String × Int)
  heartbeat_tasks : List (String × Nat)
  heartbeat_interval : Int
  ping_timeout : Int
  heartbeat_running : Bool
deriving DecidableEq

/-- ConnectionManager._cleanup_user_connection (lines 56-71): each of the
three dictionaries drops the entry for the user when present; the heartbeat
task is cancelled before its entry is dropped. -/
def cleanup_user_connection (st : CMState) (uid : String) : CMState :=
  { st with
    active_connections := aremoveKey st.active_connections uid,
    user_heartbeats := aremoveKey st.user_heartbeats uid,
    heartbeat_tasks := aremoveKey st.heartbeat_tasks uid }

/-- ConnectionManager.send_personal_message (lines 91-102): an absent user id
yields False with no state change; a transport error during the write (sendOk
false) cleans the connection up and also yields False. -/
def send_personal_message (st : CMState) (text uid : String) (sendOk : Bool) :
    Bool × CMState :=
  match alookup st.active_connections uid with
  | none => (false, st)
  | some _ =>
    if sendOk then (true, st) else (false, cleanup_user_connection st uid)

/-- Messages and transport calls the connection manager emits toward a peer. -/
inductive WireAction
  | pingMsg (uid : String)
  | closeNotify (uid : String)
  | closeTransport (uid : String)
deriving DecidableEq

/-- ConnectionManager._force_disconnect_user (lines 207-231): when the user is
registered, the close notification is sent inside try/except pass (always
attempted, failures swallowed) and then the transport is closed; only when
the close call itself does not raise (closeOk) does control reach the cleanup,
because the surrounding try/except returns early on an exception from close.
An absent user id still reaches the cleanup call. -/
def force_disconnect_user (st : CMState) (uid : String) (closeOk : Bool) :
    CMState × List WireAction :=
  match alookup st.active_connections uid with
  | some _ =>
    if closeOk then
      (cleanup_user_connection st uid, [WireAction.closeNotify uid, WireAction.closeTransport uid])
    else (st, [WireAction.closeNotify uid, WireAction.closeTransport uid])
  | none => (cleanup_user_connection st uid, [])

/-- ConnectionManager.update_user_heartbeat (lines 233-237). -/
def update_user_heartbeat (st : CMState) (uid : String) (t : Int) : CMState :=
  if (alookup st.active_connections uid).isSome then
    { st with user_heartbeats := adictSet st.user_heartbeats uid t }
  else st

/-- One iteration of ConnectionManager._user_heartbeat_loop (lines 152-191),
observed at its post-sleep check time t.  The loop condition requires the
user to be registered and the main heartbeat flag on; the ping sent at the
start of the iteration raised iff pingOk is false, which lands in the except
branch that force-disconnects with reason heartbeat_error; otherwise the
elapsed time since the last recorded heartbeat (dict get with default 0) is
compared against interval + ping_timeout and a strict excess force-disconnects
with reason heartbeat_timeout. -/
def heartbeat_probe (st : CMState) (uid : String) (t : Int) (pingOk closeOk : Bool) :
    CMState × List WireAction :=
  if (alookup st.active_connections uid).isSome = true ∧ st.heartbeat_running = true then
    if pingOk = false then force_disconnect_user st uid closeOk
    else if st.heartbeat_interval + st.ping_timeout < t - alookupD st.user_heartbeats uid 0 then
      ((force_disconnect_user st uid closeOk).1,
        WireAction.pingMsg uid :: (force_disconnect_user st uid closeOk).2)
    else (st, [WireAction.pingMsg uid])
  else (st, [])

/-- Event at a connection as seen by the heartbeat supervisor: an inbound ack
recorded by update_user_heartbeat at clock reading t, or a probe check of the
per-user heartbeat loop at clock reading t. -/
inductive HBEvent
  | ack (t : Int)
  | probe (t : Int) (pingOk : Bool) (closeOk : Bool)
deriving DecidableEq

/-- State effect of one heartbeat event. -/
def hbStep (st : CMState) (uid : String) : HBEvent → CMState
  | .ack t => update_user_heartbeat st uid t
  | .probe t pingOk closeOk => (heartbeat_probe st uid t pingOk closeOk).1

/-- Run a sequence of heartbeat events. -/
def runHB (st : CMState) (uid : String) : List HBEvent → CMState
  | [] => st
  | e :: rest => runHB (hbStep st uid e) uid rest

/-- Freshness of a heartbeat trace: every probe finds a ping that was sent
successfully and a last-heartbeat timestamp within interval + ping_timeout of
the probe time. -/
def freshRun (st : CMState) (uid : String) : List HBEvent → Bool
  | [] => true
  | .ack t :: rest => freshRun (update_user_heartbeat st uid t) uid rest
  | .probe t pingOk closeOk :: rest =>
    pingOk &&
      decide (t - alookupD st.user_heartbeats uid 0 ≤ st.heartbeat_interval + st.ping_timeout) &&
      freshRun ((heartbeat_probe st uid t pingOk closeOk).1) uid rest

/-- State of the per-topic dispatch machinery of the broker: the topic queue,
the batch currently inside _process_message as the message together with the
subscriber calls still pending in the gather, the trace of completed
subscriber invocations, and the list of messages published so far. -/
structure DispatchState where
  queue : List Msg
  current : Option (Msg × List Nat)
  delivered : List (Nat × Msg)
  published : List Msg
deriving DecidableEq

/-- The empty dispatch state. -/
def dInit : DispatchState := ⟨[], none, [], []⟩

/-- Dispatch steps for one topic with the fixed subscriber list subs,
translated from message_broker.py: publish appends to the FIFO queue
(queue.put_nowait, line 133); getMessage is the dispatch loop taking the next
message (queue.get, line 274) and creating one _call_subscriber task per
subscriber (lines 302-305) - possible only between batches because the gather
on line 308 completes a batch before the loop returns to queue.get, and
_ensure_topic_processing (lines 237-250, no await in its body) never lets two
dispatch tasks be active for one topic; deliver is the completion of one
pending subscriber call, in any order, modelling the concurrent execution of
the gathered tasks; finish ends a batch whose pending set is empty. -/
inductive DStep (subs : List Nat) : DispatchState → DispatchState → Prop
  | publish (st : DispatchState) (m : Msg) :
      DStep subs st
        { st with queue := st.queue ++ [m], published := st.published ++ [m] }
  | getMessage (st : DispatchState) (m : Msg) (q : List Msg) :
      st.current = none → st.queue = m :: q →
      DStep subs st { st with queue := q, current := some (m, subs) }
  | deliver (st : DispatchState) (m : Msg) (rem : List Nat) (s : Nat) :
      st.current = some (m, rem) → s ∈ rem →
      DStep subs st
        { st with current := some (m, rem.erase s),
                  delivered := st.delivered ++ [(s, m)] }
  | finish (st : DispatchState) (m : Msg) :
      st.current = some (m, []) →
      DStep subs st { st with current := none }

/-- Reachability of a dispatch state from the empty state under any
interleaving of dispatch steps. -/
inductive DReach (subs : List Nat) : DispatchState → Prop
  | init : DReach subs dInit
  | step {a b : DispatchState} : DReach subs a → DStep subs a b → DReach subs b

/-- Messages a given subscriber has received so far, in invocation order. -/
def viewOf (s : Nat) (tr : List (Nat × Msg)) : List Msg :=
  tr.filterMap (fun p => if p.1 = s then some p.2 else none)

/-- The message still owed to subscriber s by the current batch, if any. -/
def pendingFor (s : Nat) : Option (Msg × List Nat) → List Msg
  | none => []
  | some (m, rem) => if s ∈ rem then [m] else []

/-- Invariant of the dispatch machinery: what a subscriber has seen, what the
current batch still owes it, and the queued backlog together spell out the
full publish history in order; and the pending set of a batch comes from the
subscriber list. -/
def DInv (subs : List Nat) (st : DispatchState) : Prop :=
  (∀ s, s ∈ subs →
    viewOf s st.delivered ++ (pendingFor s st.current ++ st.queue) = st.published) ∧
  (∀ m rem, st.current = some (m, rem) → List.Sublist rem subs)

/-- A sample payload. -/
def wMsg : Msg := [("text", Val.str "hi")]

/-- A payload that tries to set a reserved broker key. -/
def wMsg6 : Msg := [("x", Val.num 1), ("_broker_topic", Val.str "evil")]

/-- Sample message a, for dispatch traces. -/
def mA : Msg := [("text", Val.str "a")]

/-- Sample message b, for dispatch traces. -/
def mB : Msg := [("text", Val.str "b")]

/-- A running broker with topic t1 created and nobody reading it. -/
def wRun : BrokerState :=
  { topics := [("t1", [])], subscribers := [("t1", [])],
    message_handlers := [("t1", [])], consumers := [("t1", [])],
    max_queue_size := 1000, running := true, broker_tasks := [], next_task := 0,
    message_stats := ⟨0, 0, 0, 0, 0⟩ }

/-- A running broker with topic t1 carrying one subscriber, callback 5. -/
def wSub : BrokerState :=
  { topics := [("t1", [])], subscribers := [("t1", [5])],
    message_handlers := [("t1", [])], consumers := [("t1", [])],
    max_queue_size := 1000, running := true, broker_tasks := [], next_task := 0,
    message_stats := ⟨0, 0, 0, 0, 0⟩ }

/-- A broker that was never started. -/
def wNotRun : BrokerState :=
  { topics := [], subscribers := [], message_handlers := [], consumers := [],
    max_queue_size := 1000, running := false, broker_tasks := [], next_task := 0,
    message_stats := ⟨0, 0, 0, 0, 0⟩ }

/-- A running broker whose topic t1 queue is at its capacity of one and has no
readers. -/
def wFull : BrokerState :=
  { topics := [("t1", [[("a", Val.num 0)]])], subscribers := [("t1", [])],
    message_handlers := [("t1", [])], consumers := [("t1", [])],
    max_queue_size := 1, running := true, broker_tasks := [], next_task := 0,
    message_stats := ⟨0, 0, 0, 0, 0⟩ }

/-- A connection manager with no registered connections. -/
def wCM : CMState := ⟨[], [], [], 30, 10, false⟩

/-- A connection manager with one registered connection u. -/
def wCM2 : CMState := ⟨[("u", 7)], [("u", 0)], [("u", 1)], 30, 10, true⟩

/-- Heartbeat trace for user u of wCM2 that stays fresh at both probes. -/
def wEvts : List HBEvent :=
  [HBEvent.ack 25, HBEvent.probe 30 true true, HBEvent.ack 55, HBEvent.probe 60 true true]

-- THEOREMS_SECTION_MARKER

theorem alookup_adictSet_self {α : Type} (m : List (String × α)) (k : String) (v : α) :
    alookup (adictSet m k v) k = some v := by
  induction m with
  | nil => simp [adictSet, alookup]
  | cons p rest ih =>
    obtain ⟨k1, v1⟩ := p
    by_cases h : k1 = k
    · simp [adictSet, h, alookup]
    · simp [adictSet, h, alookup, ih]

theorem alookup_adictSet_ne {α : Type} (m : List (String × α)) (k k' : String) (v : α)
    (h : k' ≠ k) : alookup (adictSet m k v) k' = alookup m k' := by
  induction m with
  | nil => simp [adictSet, alookup, Ne.symm h]
  | cons p rest ih =>
    obtain ⟨k1, v1⟩ := p
    by_cases h1 : k1 = k
    · subst h1
      simp [adictSet, alookup, Ne.symm h]
    · simp only [adictSet, if_neg h1, alookup]
      by_cases h2 : k1 = k'
      · simp [h2]
      · simp [h2, ih]

theorem alookup_aremoveKey_self {α : Type} (m : List (String × α)) (k : String) :
    alookup (aremoveKey m k) k = none := by
  induction m with
  | nil => simp [aremoveKey, alookup]
  | cons p rest ih =>
    obtain ⟨k1, v1⟩ := p
    by_cases h : k1 = k
    · simp [aremoveKey, h, ih]
    · simp [aremoveKey, alookup, h, ih]

theorem aremoveKey_idem {α : Type} (m : List (String × α)) (k : String) :
    aremoveKey (aremoveKey m k) k = aremoveKey m k := by
  induction m with
  | nil => simp [aremoveKey]
  | cons p rest ih =>
    obtain ⟨k1, v1⟩ := p
    by_cases h : k1 = k
    · simp [aremoveKey, h, ih]
    · simp [aremoveKey, h, ih]

theorem mem_keysOf_adictSet {α : Type} (m : List (String × α)) (k k' : String) (v : α) :
    k' ∈ keysOf (adictSet m k v) ↔ k' = k ∨ k' ∈ keysOf m := by
  induction m with
  | nil => simp [adictSet, keysOf]
  | cons p rest ih =>
    obtain ⟨k1, v1⟩ := p
    by_cases h : k1 = k
    · subst h
      rw [show adictSet ((k1, v1) :: rest) k1 v = (k1, v) :: rest from by simp [adictSet]]
      simp only [keysOf, List.map_cons, List.mem_cons]
      tauto
    · simp only [adictSet, if_neg h, keysOf, List.map_cons, List.mem_cons] at ih ⊢
      tauto

theorem Stats.le_refl (a : Stats) : Stats.le a a := by
  simp [Stats.le]

theorem Stats.le_trans {a b c : Stats} (h1 : Stats.le a b) (h2 : Stats.le b c) :
    Stats.le a c := by
  obtain ⟨x1, x2, x3, x4, x5⟩ := h1
  obtain ⟨y1, y2, y3, y4, y5⟩ := h2
  exact ⟨x1.trans y1, x2.trans y2, x3.trans y3, x4.trans y4, x5.trans y5⟩

theorem viewOf_append (s : Nat) (a b : List (Nat × Msg)) :
    viewOf s (a ++ b) = viewOf s a ++ viewOf s b := by
  simp [viewOf, List.filterMap_append]

theorem dinv_init (subs : List Nat) : DInv subs dInit := by
  constructor
  · intro s _
    simp [dInit, viewOf, pendingFor]
  · intro m rem h
    simp [dInit] at h

theorem viewOf_single_self (s : Nat) (m : Msg) : viewOf s [(s, m)] = [m] := by
  simp [viewOf]

theorem viewOf_single_ne (s s0 : Nat) (m : Msg) (h : s ≠ s0) : viewOf s [(s0, m)] = [] := by
  simp [viewOf, Ne.symm h]

theorem dinv_step {subs : List Nat} (hnd : subs.Nodup) {a b : DispatchState}
    (hinv : DInv subs a) (hstep : DStep subs a b) : DInv subs b := by
  cases hstep with
  | publish m =>
    refine ⟨?_, ?_⟩
    · intro s hs
      have h := hinv.1 s hs
      show viewOf s a.delivered ++ (pendingFor s a.current ++ (a.queue ++ [m]))
        = a.published ++ [m]
      rw [show viewOf s a.delivered ++ (pendingFor s a.current ++ (a.queue ++ [m]))
            = (viewOf s a.delivered ++ (pendingFor s a.current ++ a.queue)) ++ [m] by
          simp [List.append_assoc]]
      rw [h]
    · intro m0 rem h
      exact hinv.2 m0 rem h
  | getMessage m q hcur hq =>
    refine ⟨?_, ?_⟩
    · intro s hs
      have h := hinv.1 s hs
      rw [hcur, hq] at h
      simp only [pendingFor, List.nil_append] at h
      show viewOf s a.delivered ++ (pendingFor s (some (m, subs)) ++ q) = a.published
      simp only [pendingFor, if_pos hs]
      rw [show ([m] : List Msg) ++ q = m :: q from rfl]
      exact h
    · intro m0 rem h
      have h2 : some (m, subs) = some (m0, rem) := h
      simp only [Option.some.injEq, Prod.mk.injEq] at h2
      obtain ⟨hm0, hrem0⟩ := h2
      subst hrem0
      exact List.Sublist.refl subs
  | deliver m rem s0 hcur hmem =>
    have hsub : List.Sublist rem subs := hinv.2 m rem hcur
    have hremnd : rem.Nodup := hsub.nodup hnd
    refine ⟨?_, ?_⟩
    · intro s hs
      have h := hinv.1 s hs
      rw [hcur] at h
      show viewOf s (a.delivered ++ [(s0, m)])
          ++ (pendingFor s (some (m, rem.erase s0)) ++ a.queue) = a.published
      rw [viewOf_append]
      by_cases hss : s = s0
      · subst hss
        rw [viewOf_single_self]
        simp only [pendingFor, if_pos hmem] at h
        have hnotmem : s ∉ rem.erase s := by
          intro hc
          rw [hremnd.mem_erase_iff] at hc
          exact hc.1 rfl
        simp only [pendingFor, if_neg hnotmem, List.nil_append]
        rw [show viewOf s a.delivered ++ [m] ++ a.queue
              = viewOf s a.delivered ++ ([m] ++ a.queue) by simp [List.append_assoc]]
        exact h
      · rw [viewOf_single_ne s s0 m hss, List.append_nil]
        have hpend : pendingFor s (some (m, rem.erase s0)) = pendingFor s (some (m, rem)) := by
          simp only [pendingFor]
          by_cases hin : s ∈ rem
          · rw [if_pos hin, if_pos (hremnd.mem_erase_iff.mpr ⟨hss, hin⟩)]
          · rw [if_neg hin, if_neg (fun hc => hin (List.mem_of_mem_erase hc))]
        rw [hpend]
        exact h
    · intro m0 rem0 h
      have h2 : some (m, rem.erase s0) = some (m0, rem0) := h
      simp only [Option.some.injEq, Prod.mk.injEq] at h2
      obtain ⟨hm0, hrem0⟩ := h2
      subst hrem0
      exact List.Sublist.trans (List.erase_sublist s0 rem) hsub
  | finish m hcur =>
    refine ⟨?_, ?_⟩
    · intro s hs
      have h := hinv.1 s hs
      rw [hcur] at h
      simp only [pendingFor, List.not_mem_nil, if_false] at h
      show viewOf s a.delivered ++ (pendingFor s none ++ a.queue) = a.published
      simpa [pendingFor] using h
    · intro m0 rem h
      have h2 : (none : Option (Msg × List Nat)) = some (m0, rem) := h
      simp at h2

theorem dinv_reach {subs : List Nat} (hnd : subs.Nodup) {st : DispatchState}
    (h : DReach subs st) : DInv subs st := by
  induction h with
  | init => exact dinv_init subs
  | step hr hs ih => exact dinv_step hnd ih hs

theorem ensure_of_isSome (st : BrokerState) (topic : String)
    (h : (alookup st.topics topic).isSome = true) :
    ensure_topic_exists st topic = st := by
  simp [ensure_topic_exists, h]

theorem ensure_running (st : BrokerState) (topic : String) :
    (ensure_topic_exists st topic).running = st.running := by
  unfold ensure_topic_exists
  split <;> rfl

theorem ensure_max (st : BrokerState) (topic : String) :
    (ensure_topic_exists st topic).max_queue_size = st.max_queue_size := by
  unfold ensure_topic_exists
  split <;> rfl

theorem ensure_topics_isSome (st : BrokerState) (topic : String) :
    (alookup (ensure_topic_exists st topic).topics topic).isSome = true := by
  unfold ensure_topic_exists
  split
  · rename_i h
    exact h
  · simp [alookup_adictSet_self]

theorem ensure_queueD (st : BrokerState) (topic : String) :
    alookupD (ensure_topic_exists st topic).topics topic [] = alookupD st.topics topic [] := by
  unfold ensure_topic_exists
  split
  · rfl
  · rename_i h
    have hn : alookup st.topics topic = none := by
      cases hx : alookup st.topics topic
      · rfl
      · rw [hx] at h
        simp at h
    simp [alookupD, alookup_adictSet_self, hn]

theorem ensure_subsD_empty (st : BrokerState) (topic : String)
    (h : alookupD st.subscribers topic [] = []) :
    alookupD (ensure_topic_exists st topic).subscribers topic [] = [] := by
  unfold ensure_topic_exists
  split
  · exact h
  · simp [alookupD, alookup_adictSet_self]

theorem ensure_consD_empty (st : BrokerState) (topic : String)
    (h : alookupD st.consumers topic [] = []) :
    alookupD (ensure_topic_exists st topic).consumers topic [] = [] := by
  unfold ensure_topic_exists
  split
  · exact h
  · simp [alookupD, alookup_adictSet_self]

theorem etp_topics (st : BrokerState) (topic : String) :
    (ensure_topic_processing st topic).topics = st.topics := by
  unfold ensure_topic_processing
  split <;> rfl

theorem etp_stats (st : BrokerState) (topic : String) :
    (ensure_topic_processing st topic).message_stats = st.message_stats := by
  unfold ensure_topic_processing
  split <;> rfl

theorem stats_le_ensure (st : BrokerState) (topic : String) :
    Stats.le st.message_stats (ensure_topic_exists st topic).message_stats := by
  unfold ensure_topic_exists
  split
  · exact Stats.le_refl _
  · exact ⟨Nat.le_refl _, Nat.le_refl _, Nat.le_refl _, Nat.le_succ _, Nat.le_refl _⟩

theorem stats_le_foldl_ensure (l : List String) (st : BrokerState) :
    Stats.le st.message_stats (l.foldl ensure_topic_exists st).message_stats := by
  induction l generalizing st with
  | nil => exact Stats.le_refl _
  | cons x xs ih => exact Stats.le_trans (stats_le_ensure st x) (ih _)

theorem stats_le_publish (st : BrokerState) (topic : String) (m : Msg) (t : Int) (oid : Nat) :
    Stats.le st.message_stats (publish st topic m t oid).2.message_stats := by
  unfold publish
  split
  · exact Stats.le_refl _
  · split
    · exact stats_le_ensure st topic
    · split
      · exact stats_le_ensure st topic
      · show Stats.le st.message_stats (ensure_topic_processing _ topic).message_stats
        rw [etp_stats]
        refine Stats.le_trans (stats_le_ensure st topic) ?_
        exact ⟨Nat.le_succ _, Nat.le_refl _, Nat.le_refl _, Nat.le_refl _, Nat.le_refl _⟩

theorem stats_le_consume_one (st : BrokerState) (topic : String) :
    Stats.le st.message_stats (consume_one st topic).2.message_stats := by
  unfold consume_one
  split
  · exact Stats.le_refl _
  · split
    · exact stats_le_ensure st topic
    · refine Stats.le_trans (stats_le_ensure st topic) ?_
      exact ⟨Nat.le_refl _, Nat.le_refl _, Nat.le_refl _, Nat.le_refl _, Nat.le_succ _⟩

theorem stats_le_consume_begin (st : BrokerState) (topic : String) (tid : Nat) :
    Stats.le st.message_stats (consume_begin st topic tid).2.message_stats := by
  unfold consume_begin
  split
  · exact Stats.le_refl _
  · exact stats_le_ensure st topic

theorem stats_le_consume_next (st : BrokerState) (topic : String) :
    Stats.le st.message_stats (consume_next st topic).2.message_stats := by
  unfold consume_next
  split
  · exact Stats.le_refl _
  · split
    · exact Stats.le_refl _
    · exact ⟨Nat.le_refl _, Nat.le_refl _, Nat.le_refl _, Nat.le_refl _, Nat.le_succ _⟩

theorem stats_eq_subscribe (st : BrokerState) (topic : String) (cb : Nat) :
    (subscribe st topic cb).2.message_stats = st.message_stats := by
  unfold subscribe
  split
  · rfl
  · split <;> rfl

theorem stats_eq_unsubscribe (st : BrokerState) (topic : String) (cb : Nat) :
    (unsubscribe st topic cb).2.message_stats = st.message_stats := by
  unfold unsubscribe
  split
  · rfl
  · split <;> rfl

theorem update_active (st : CMState) (uid : String) (t : Int) :
    (update_user_heartbeat st uid t).active_connections = st.active_connections := by
  unfold update_user_heartbeat
  split <;> rfl

theorem hb_fresh_keeps (st : CMState) (uid : String) (evts : List HBEvent)
    (hact : (alookup st.active_connections uid).isSome = true)
    (hfresh : freshRun st uid evts = true) :
    (alookup (runHB st uid evts).active_connections uid).isSome = true := by
  induction evts generalizing st with
  | nil => simpa [runHB] using hact
  | cons e rest ih =>
    cases e with
    | ack t =>
      have hact2 : (alookup (update_user_heartbeat st uid t).active_connections uid).isSome
          = true := by
        rw [update_active]
        exact hact
      have hfresh2 : freshRun (update_user_heartbeat st uid t) uid rest = true := hfresh
      exact ih _ hact2 hfresh2
    | probe t pingOk closeOk =>
      simp only [freshRun, Bool.and_eq_true, decide_eq_true_eq] at hfresh
      obtain ⟨⟨hping, helapsed⟩, hrest⟩ := hfresh
      have hstate : (heartbeat_probe st uid t pingOk closeOk).1 = st := by
        by_cases hr : st.heartbeat_running = true
        · subst hping
          simp [heartbeat_probe, hact, hr, not_lt.mpr helapsed]
        · simp [heartbeat_probe, hr]
      show (alookup (runHB ((heartbeat_probe st uid t pingOk closeOk).1) uid rest).active_connections
          uid).isSome = true
      rw [hstate] at hrest ⊢
      exact ih _ hact hrest

theorem publish_no_readers_helper (st : BrokerState) (topic : String) (m : Msg)
    (t : Int) (oid : Nat)
    (hsub : alookupD st.subscribers topic [] = [])
    (hcon : alookupD st.consumers topic [] = []) :
    (publish st topic m t oid).1 = false ∧
    alookupD (publish st topic m t oid).2.topics topic [] = alookupD st.topics topic [] := by
  by_cases hrun : st.running = false
  · simp [publish, hrun]
  · have hs1 := ensure_subsD_empty st topic hsub
    have hc1 := ensure_consD_empty st topic hcon
    constructor
    · simp [publish, hrun, hs1, hc1]
    · simp [publish, hrun, hs1, hc1, ensure_queueD]

theorem snd_pair {α β : Type} (a : α) (b : β) : (a, b).2 = b := rfl

theorem publish_no_readers_state (st : BrokerState) (topic : String) (m : Msg)
    (t : Int) (oid : Nat)
    (hrun : st.running = true)
    (hsub : alookupD st.subscribers topic [] = [])
    (hcon : alookupD st.consumers topic [] = []) :
    (publish st topic m t oid).2 = ensure_topic_exists st topic := by
  have hrun2 : ¬(st.running = false) := by simp [hrun]
  have hs1 := ensure_subsD_empty st topic hsub
  have hc1 := ensure_consD_empty st topic hcon
  simp [publish, hrun2, hs1, hc1]

/-- C1: for every topic with zero registered subscribers and zero active
consumers, publish returns failure and does not enqueue the message, so the
queue length of that topic is unchanged after the call (in particular it
remains 0 if it was 0). -/
theorem c1_publish_no_readers (st : BrokerState) (topic : String) (m : Msg)
    (t : Int) (oid : Nat)
    (hsub : alookupD st.subscribers topic [] = [])
    (hcon : alookupD st.consumers topic [] = []) :
    (publish st topic m t oid).1 = false ∧
    alookupD (publish st topic m t oid).2.topics topic [] = alookupD st.topics topic [] :=
  publish_no_readers_helper st topic m t oid hsub hcon

/-- Witness for C1: with topic t1 of wRun having no subscriber and no
consumer, a publish fails and the queue stays as it was (empty). -/
theorem c1_witness :
    (publish wRun "t1" wMsg 3 4).1 = false ∧
    alookupD (publish wRun "t1" wMsg 3 4).2.topics "t1" [] = alookupD wRun.topics "t1" [] :=
  c1_publish_no_readers wRun "t1" wMsg 3 4 (by decide) (by decide)

/-- C5: capacity and availability failures are reported as return values and
never as exceptions (every modelled entry point is a total function into its
Python return value): publish returns False and is a no-op when the broker is
not running; publish returns False and drops the message when the bounded
queue is full; publish returns False when the topic has no subscribers and no
consumers; send_personal_message on an absent connection id returns False
with no state change. -/
theorem c5_failures_as_return_values (s1 s2 : BrokerState) (topic : String) (m : Msg)
    (t : Int) (oid : Nat) (cm : CMState) (text uid : String) (ok : Bool) :
    (s1.running = false → publish s1 topic m t oid = (false, s1)) ∧
    (0 < s2.max_queue_size →
      s2.max_queue_size ≤ (alookupD s2.topics topic []).length →
      (publish s2 topic m t oid).1 = false ∧
      alookupD (publish s2 topic m t oid).2.topics topic [] = alookupD s2.topics topic []) ∧
    (alookupD s2.subscribers topic [] = [] → alookupD s2.consumers topic [] = [] →
      (publish s2 topic m t oid).1 = false) ∧
    (alookup cm.active_connections uid = none →
      send_personal_message cm text uid ok = (false, cm)) := by
  refine ⟨?_, ?_, ?_, ?_⟩
  · intro h
    simp [publish, h]
  · intro hpos hfull
    have hsome : (alookup s2.topics topic).isSome = true := by
      cases hx : alookup s2.topics topic
      · rw [show alookupD s2.topics topic [] = [] by simp [alookupD, hx]] at hfull
        simp at hfull
        omega
      · rfl
    have hE : ensure_topic_exists s2 topic = s2 := ensure_of_isSome s2 topic hsome
    by_cases hrun : s2.running = false
    · simp [publish, hrun]
    · by_cases hreaders : ((alookupD s2.subscribers topic []).isEmpty
          && (alookupD s2.consumers topic []).isEmpty) = true
      · constructor
        · simp [publish, hrun, hE, hreaders]
        · simp [publish, hrun, hE, hreaders]
      · constructor
        · simp [publish, hrun, hE, hreaders, hpos, hfull]
        · simp [publish, hrun, hE, hreaders, hpos, hfull]
  · intro hsub hcon
    exact (publish_no_readers_helper s2 topic m t oid hsub hcon).1
  · intro h
    simp [send_personal_message, h]

/-- Witness for C5: wNotRun is stopped, wFull has a full queue for t1 and no
readers for t1, and wCM has no connection u. -/
theorem c5_witness :
    publish wNotRun "t1" wMsg 1 2 = (false, wNotRun) ∧
    ((publish wFull "t1" wMsg 1 2).1 = false ∧
      alookupD (publish wFull "t1" wMsg 1 2).2.topics "t1" [] = alookupD wFull.topics "t1" []) ∧
    (publish wFull "t1" wMsg 1 2).1 = false ∧
    send_personal_message wCM "x" "u" true = (false, wCM) := by
  have h := c5_failures_as_return_values wNotRun wFull "t1" wMsg 1 2 wCM "x" "u" true
  exact ⟨h.1 (by decide), h.2.1 (by decide) (by decide),
    h.2.2.1 (by decide) (by decide), h.2.2.2 (by decide)⟩

/-- C7: stop is idempotent and safe without a prior start (a second stop, or a
stop on a never-started broker, changes nothing), and removing the same
connection twice leaves the registry, heartbeat timestamps and heartbeat
tasks exactly as the first removal left them. -/
theorem c7_stop_and_cleanup_idempotent (st : BrokerState) (cm : CMState) (uid : String) :
    stop (stop st) = stop st ∧
    (st.running = false → stop st = st) ∧
    cleanup_user_connection (cleanup_user_connection cm uid) uid
      = cleanup_user_connection cm uid := by
  refine ⟨?_, ?_, ?_⟩
  · by_cases h : st.running = false
    · simp [stop, h]
    · simp [stop, h]
  · intro h
    simp [stop, h]
  · simp [cleanup_user_connection, aremoveKey_idem]

/-- Witness for C7: a never-started broker and a registry holding user u. -/
theorem c7_witness :
    stop (stop wNotRun) = stop wNotRun ∧
    stop wNotRun = wNotRun ∧
    cleanup_user_connection (cleanup_user_connection wCM2 "u") "u"
      = cleanup_user_connection wCM2 "u" := by
  have h := c7_stop_and_cleanup_idempotent wNotRun wCM2 "u"
  exact ⟨h.1, h.2.1 (by decide), h.2.2⟩

/-- C8: subscribing an already-registered callback reports failure and leaves
the whole state (hence the subscriber list) unchanged; doing a subscribe
twice in a row makes the second call fail; a callback never appears more than
once in the list; and unsubscribing a callback not registered for the topic
reports failure and leaves the state unchanged. -/
theorem c8_subscribe_unsubscribe_idempotent (st : BrokerState) (topic : String)
    (cb cb2 : Nat) :
    (cb ∈ alookupD st.subscribers topic [] → subscribe st topic cb = (false, st)) ∧
    (st.running = true →
      subscribe (subscribe st topic cb).2 topic cb = (false, (subscribe st topic cb).2)) ∧
    ((alookupD st.subscribers topic []).count cb ≤ 1 →
      (alookupD (subscribe st topic cb).2.subscribers topic []).count cb ≤ 1) ∧
    (cb2 ∉ alookupD st.subscribers topic [] → unsubscribe st topic cb2 = (false, st)) := by
  refine ⟨?_, ?_, ?_, ?_⟩
  · intro h
    by_cases hrun : st.running = false
    · simp [subscribe, hrun]
    · simp [subscribe, hrun, h]
  · intro hrun
    have hrun2 : ¬(st.running = false) := by simp [hrun]
    by_cases h : cb ∈ alookupD st.subscribers topic []
    · have h1 : subscribe st topic cb = (false, st) := by simp [subscribe, hrun2, h]
      rw [h1]
      simp [subscribe, hrun2, h]
    · have h' : cb ∉ (alookup st.subscribers topic).getD [] := by
        simpa [alookupD] using h
      have hmem : cb ∈ alookupD (subscribe st topic cb).2.subscribers topic [] := by
        simp [subscribe, hrun2, h', alookupD, alookup_adictSet_self]
      have hrun3 : ¬((subscribe st topic cb).2.running = false) := by
        simp [subscribe, hrun2, h, hrun]
      generalize hgen : (subscribe st topic cb).2 = st2 at hmem hrun3 ⊢
      simp [subscribe, hrun3, hmem]
  · intro hcount
    by_cases hrun : st.running = false
    · simpa [subscribe, hrun] using hcount
    · by_cases h : cb ∈ alookupD st.subscribers topic []
      · simpa [subscribe, hrun, h] using hcount
      · have hzero : (alookupD st.subscribers topic []).count cb = 0 :=
          List.count_eq_zero.mpr h
        have h' : cb ∉ (alookup st.subscribers topic).getD [] := by
          simpa [alookupD] using h
        have hz' : ((alookup st.subscribers topic).getD []).count cb = 0 := by
          simpa [alookupD] using hzero
        simp [subscribe, hrun, h', alookupD, alookup_adictSet_self, List.count_append, hz']
  · intro h
    cases hx : alookup st.subscribers topic with
    | none => simp [unsubscribe, hx]
    | some lst =>
      have hnot : cb2 ∉ lst := by
        rw [show lst = alookupD st.subscribers topic [] by simp [alookupD, hx]]
        exact h
      simp [unsubscribe, hx, hnot]

/-- Witness for C8: callback 5 is already subscribed to t1 of wSub and
callback 9 is not. -/
theorem c8_witness :
    subscribe wSub "t1" 5 = (false, wSub) ∧
    subscribe (subscribe wSub "t1" 5).2 "t1" 5 = (false, (subscribe wSub "t1" 5).2) ∧
    (alookupD (subscribe wSub "t1" 5).2.subscribers "t1" []).count 5 ≤ 1 ∧
    unsubscribe wSub "t1" 9 = (false, wSub) := by
  have h := c8_subscribe_unsubscribe_idempotent wSub "t1" 5 9
  exact ⟨h.1 (by decide), h.2.1 (by decide), h.2.2.1 (by decide), h.2.2.2 (by decide)⟩

/-- C9: each of the five statistics counters is monotonically non-decreasing
across every modelled broker operation, including stop, which clears the
topic structures but never touches message_stats. -/
theorem c9_stats_monotone (st : BrokerState) (op : BrokerOp) :
    Stats.le st.message_stats (brokerStep st op).message_stats := by
  cases op with
  | startOp =>
    show Stats.le st.message_stats (start st).message_stats
    unfold start
    split
    · exact Stats.le_refl _
    · exact stats_le_foldl_ensure internalTopics { st with running := true }
  | stopOp =>
    show Stats.le st.message_stats (stop st).message_stats
    unfold stop
    split
    · exact Stats.le_refl _
    · exact Stats.le_refl _
  | ensureTopicOp topic => exact stats_le_ensure st topic
  | publishOp topic m t oid => exact stats_le_publish st topic m t oid
  | subscribeOp topic cb =>
    show Stats.le st.message_stats (subscribe st topic cb).2.message_stats
    rw [stats_eq_subscribe]
    exact Stats.le_refl _
  | unsubscribeOp topic cb =>
    show Stats.le st.message_stats (unsubscribe st topic cb).2.message_stats
    rw [stats_eq_unsubscribe]
    exact Stats.le_refl _
  | consumeOneOp topic => exact stats_le_consume_one st topic
  | consumeBeginOp topic tid => exact stats_le_consume_begin st topic tid
  | consumeNextOp topic => exact stats_le_consume_next st topic
  | processMessageOp outcomes =>
    exact ⟨Nat.le_refl _, Nat.le_add_right _ _, Nat.le_add_right _ _,
      Nat.le_refl _, Nat.le_refl _⟩
  | processErrorOp =>
    exact ⟨Nat.le_refl _, Nat.le_refl _, Nat.le_succ _, Nat.le_refl _, Nat.le_refl _⟩

/-- C2: under any interleaving of publishes, batch starts, and concurrent
subscriber completions in any order, the messages each subscriber has
received form a prefix of the publish sequence of the topic (so no
reordering is ever observed by one subscriber), and once the queue is
drained and no batch is in flight every subscriber has received exactly the
publish sequence, in publish order. -/
theorem c2_fifo_per_subscriber (subs : List Nat) (st : DispatchState)
    (hnd : subs.Nodup) (hr : DReach subs st) :
    (∀ s, s ∈ subs → ∃ rest, viewOf s st.delivered ++ rest = st.published) ∧
    (st.queue = [] → st.current = none →
      ∀ s, s ∈ subs → viewOf s st.delivered = st.published) := by
  have hinv := dinv_reach hnd hr
  constructor
  · intro s hs
    exact ⟨pendingFor s st.current ++ st.queue, hinv.1 s hs⟩
  · intro hq hc s hs
    have h := hinv.1 s hs
    rw [hq, hc] at h
    simpa [pendingFor] using h

/-- Witness for C2: two messages published to a topic with subscribers 1 and
2, delivered in a batch order that differs between the two batches (2 before
1, then 1 before 2); each subscriber still sees the publish order a, b. -/
theorem c2_witness :
    viewOf 1 [(2, mA), (1, mA), (1, mB), (2, mB)] = [mA, mB] ∧
    viewOf 2 [(2, mA), (1, mA), (1, mB), (2, mB)] = [mA, mB] := by
  have h0 : DReach [1, 2] dInit := DReach.init
  have h1 : DReach [1, 2] (⟨[mA], none, [], [mA]⟩ : DispatchState) :=
    DReach.step h0 (DStep.publish dInit mA)
  have h2 : DReach [1, 2] (⟨[mA, mB], none, [], [mA, mB]⟩ : DispatchState) :=
    DReach.step h1 (DStep.publish _ mB)
  have h3 : DReach [1, 2] (⟨[mB], some (mA, [1, 2]), [], [mA, mB]⟩ : DispatchState) :=
    DReach.step h2 (DStep.getMessage _ mA [mB] rfl rfl)
  have h4 : DReach [1, 2]
      (⟨[mB], some (mA, [1]), [(2, mA)], [mA, mB]⟩ : DispatchState) :=
    DReach.step h3 (DStep.deliver _ mA [1, 2] 2 rfl (by decide))
  have h5 : DReach [1, 2]
      (⟨[mB], some (mA, []), [(2, mA), (1, mA)], [mA, mB]⟩ : DispatchState) :=
    DReach.step h4 (DStep.deliver _ mA [1] 1 rfl (by decide))
  have h6 : DReach [1, 2]
      (⟨[mB], none, [(2, mA), (1, mA)], [mA, mB]⟩ : DispatchState) :=
    DReach.step h5 (DStep.finish _ mA rfl)
  have h7 : DReach [1, 2]
      (⟨[], some (mB, [1, 2]), [(2, mA), (1, mA)], [mA, mB]⟩ : DispatchState) :=
    DReach.step h6 (DStep.getMessage _ mB [] rfl rfl)
  have h8 : DReach [1, 2]
      (⟨[], some (mB, [2]), [(2, mA), (1, mA), (1, mB)], [mA, mB]⟩ : DispatchState) :=
    DReach.step h7 (DStep.deliver _ mB [1, 2] 1 rfl (by decide))
  have h9 : DReach [1, 2]
      (⟨[], some (mB, []), [(2, mA), (1, mA), (1, mB), (2, mB)], [mA, mB]⟩ : DispatchState) :=
    DReach.step h8 (DStep.deliver _ mB [2] 2 rfl (by decide))
  have h10 : DReach [1, 2]
      (⟨[], none, [(2, mA), (1, mA), (1, mB), (2, mB)], [mA, mB]⟩ : DispatchState) :=
    DReach.step h9 (DStep.finish _ mB rfl)
  have h := (c2_fifo_per_subscriber [1, 2] _ (by decide) h10).2 rfl rfl
  exact ⟨h 1 (by decide), h 2 (by decide)⟩

/-- C3: evaluation of the subscriber-failure accounting at a failing input.
With two subscribers of which the first raises, _call_subscriber converts the
exception into the return value False (so nothing propagates and the other
subscriber is still invoked: the gather sees one result per subscriber), but
the tally of _process_message counts every non-Exception result as
successful, so total_processed grows by 2 and total_failed by 0 - the
raising subscriber is counted as processed and is never counted as failed,
contradicting the claimed accounting. -/
theorem c3_subscriber_exception_accounting :
    call_subscriber true = GatherResult.value false ∧
    ([true, false].map call_subscriber).length = 2 ∧
    (([true, false].map call_subscriber).filter (fun r => !isExceptionResult r)).length = 2 ∧
    process_message_tally [true, false] = (2, 0) ∧
    (brokerStep wSub (BrokerOp.processMessageOp [true, false])).message_stats.total_processed
      = wSub.message_stats.total_processed + 2 ∧
    (brokerStep wSub (BrokerOp.processMessageOp [true, false])).message_stats.total_failed
      = wSub.message_stats.total_failed := by
  refine ⟨rfl, rfl, rfl, rfl, rfl, rfl⟩

/-- C4: at a probe whose elapsed time since the last heartbeat update exceeds
interval + ping_timeout, the supervisor emits the close notification and the
transport close and removes the connection from all three registry maps; and
a connection whose heartbeat stays within interval + ping_timeout of every
probe (with the probe pings succeeding) is never evicted over any such event
trace. -/
theorem c4_heartbeat_eviction (st : CMState) (uid : String) (t : Int)
    (evts : List HBEvent) :
    ((alookup st.active_connections uid).isSome = true → st.heartbeat_running = true →
      st.heartbeat_interval + st.ping_timeout < t - alookupD st.user_heartbeats uid 0 →
      heartbeat_probe st uid t true true =
        (cleanup_user_connection st uid,
          [WireAction.pingMsg uid, WireAction.closeNotify uid,
            WireAction.closeTransport uid]) ∧
      alookup (heartbeat_probe st uid t true true).1.active_connections uid = none ∧
      alookup (heartbeat_probe st uid t true true).1.user_heartbeats uid = none ∧
      alookup (heartbeat_probe st uid t true true).1.heartbeat_tasks uid = none) ∧
    ((alookup st.active_connections uid).isSome = true → freshRun st uid evts = true →
      (alookup (runHB st uid evts).active_connections uid).isSome = true) := by
  constructor
  · intro hact hr hel
    obtain ⟨w, hw⟩ := Option.isSome_iff_exists.mp hact
    have heq : heartbeat_probe st uid t true true =
        (cleanup_user_connection st uid,
          [WireAction.pingMsg uid, WireAction.closeNotify uid,
            WireAction.closeTransport uid]) := by
      simp [heartbeat_probe, hact, hr, hel, force_disconnect_user, hw]
    refine ⟨heq, ?_, ?_, ?_⟩
    · rw [heq]
      exact alookup_aremoveKey_self st.active_connections uid
    · rw [heq]
      exact alookup_aremoveKey_self st.user_heartbeats uid
    · rw [heq]
      exact alookup_aremoveKey_self st.heartbeat_tasks uid
  · exact hb_fresh_keeps st uid evts

/-- Witness for C4: user u of wCM2 with interval 30 and grace 10 and last
heartbeat 0 is evicted at a probe at time 41; over the trace wEvts, whose
probes at times 30 and 60 each come within 40 of the latest ack, u stays
registered. -/
theorem c4_witness :
    alookup (heartbeat_probe wCM2 "u" 41 true true).1.active_connections "u" = none ∧
    (alookup (runHB wCM2 "u" wEvts).active_connections "u").isSome = true := by
  have h := c4_heartbeat_eviction wCM2 "u" 41 wEvts
  exact ⟨(h.1 (by decide) (by decide) (by decide)).2.1, h.2 (by decide) (by decide)⟩

/-- C6 counterexample: the broker id is the string topic_time_objectid, so
two successful publishes of the same payload object observed at the same
clock reading (time.time() can return equal values on consecutive calls, and
id(message) is fixed for one object) receive the same _broker_id: the two
enqueued messages of this concrete run are distinct publishes yet carry
equal ids, refuting broker-wide uniqueness. -/
theorem c6_id_collision :
    (publish wSub "t1" wMsg 5 7).1 = true ∧
    (publish (publish wSub "t1" wMsg 5 7).2 "t1" wMsg 5 7).1 = true ∧
    (alookupD (publish (publish wSub "t1" wMsg 5 7).2 "t1" wMsg 5 7).2.topics "t1" []).map
        (fun msg => alookup msg "_broker_id")
      = [some (Val.str "t1_5_7"), some (Val.str "t1_5_7")] := by
  refine ⟨rfl, rfl, ?_⟩
  decide

/-- C6 as amended: every successful publish enqueues exactly the original
payload extended with the three broker metadata keys - _broker_timestamp set
to the clock reading, _broker_topic equal to the topic argument overriding
any caller-supplied value of a reserved key, _broker_id equal to the string
topic_time_objectid - and the key set of the enriched message is the payload
keys plus exactly the reserved keys; the id is a deterministic function of
topic, clock reading and payload object identity, so ids of two publishes
coincide exactly when those inputs do (broker-wide uniqueness is not
guaranteed). -/
theorem c6_enrichment (st : BrokerState) (topic : String) (m : Msg) (t : Int)
    (oid : Nat) (k : String) :
    alookup (enrich m topic t oid) "_broker_timestamp" = some (Val.num t) ∧
    alookup (enrich m topic t oid) "_broker_topic" = some (Val.str topic) ∧
    alookup (enrich m topic t oid) "_broker_id" = some (Val.str (mkId topic t oid)) ∧
    (k ∉ reservedKeys → alookup (enrich m topic t oid) k = alookup m k) ∧
    (k ∈ keysOf (enrich m topic t oid) ↔ k ∈ keysOf m ∨ k ∈ reservedKeys) ∧
    (st.running = true →
      ((alookupD (ensure_topic_exists st topic).subscribers topic []).isEmpty = false ∨
        (alookupD (ensure_topic_exists st topic).consumers topic []).isEmpty = false) →
      ¬(0 < st.max_queue_size ∧
          st.max_queue_size ≤
            (alookupD (ensure_topic_exists st topic).topics topic []).length) →
      (publish st topic m t oid).1 = true ∧
      alookupD (publish st topic m t oid).2.topics topic []
        = alookupD (ensure_topic_exists st topic).topics topic []
            ++ [enrich m topic t oid]) := by
  refine ⟨?_, ?_, ?_, ?_, ?_, ?_⟩
  · unfold enrich
    rw [alookup_adictSet_ne _ _ _ _ (by decide),
      alookup_adictSet_ne _ _ _ _ (by decide),
      alookup_adictSet_self]
  · unfold enrich
    rw [alookup_adictSet_ne _ _ _ _ (by decide), alookup_adictSet_self]
  · unfold enrich
    rw [alookup_adictSet_self]
  · intro hk
    have h1 : k ≠ "_broker_timestamp" := by
      intro hh
      exact hk (by simp [reservedKeys, hh])
    have h2 : k ≠ "_broker_topic" := by
      intro hh
      exact hk (by simp [reservedKeys, hh])
    have h3 : k ≠ "_broker_id" := by
      intro hh
      exact hk (by simp [reservedKeys, hh])
    unfold enrich
    rw [alookup_adictSet_ne _ _ _ _ h3, alookup_adictSet_ne _ _ _ _ h2,
      alookup_adictSet_ne _ _ _ _ h1]
  · simp only [enrich, mem_keysOf_adictSet, reservedKeys, List.mem_cons,
      List.not_mem_nil]
    tauto
  · intro hrun hread hfull
    have hrun2 : ¬(st.running = false) := by simp [hrun]
    have hcond : ((alookupD (ensure_topic_exists st topic).subscribers topic []).isEmpty
        && (alookupD (ensure_topic_exists st topic).consumers topic []).isEmpty) = false := by
      rcases hread with h | h
      · simp [h]
      · simp [h]
    have hcondneg : ¬(((alookupD (ensure_topic_exists st topic).subscribers topic []).isEmpty
        && (alookupD (ensure_topic_exists st topic).consumers topic []).isEmpty) = true) := by
      simp [hcond]
    constructor
    · unfold publish
      rw [if_neg hrun2, if_neg hcondneg, if_neg hfull]
    · unfold publish
      rw [if_neg hrun2, if_neg hcondneg, if_neg hfull, snd_pair, etp_topics]
      simp [alookupD, alookup_adictSet_self]

/-- Witness for C6 as amended: publishing a payload that tries to smuggle a
value under _broker_topic to topic t1 of wSub enqueues the payload enriched
with the three reserved keys, the smuggled value overridden by t1. -/
theorem c6_witness :
    alookup (enrich wMsg6 "t1" 5 7) "_broker_topic" = some (Val.str "t1") ∧
    alookup (enrich wMsg6 "t1" 5 7) "x" = alookup wMsg6 "x" ∧
    ("x" ∈ keysOf (enrich wMsg6 "t1" 5 7) ↔ "x" ∈ keysOf wMsg6 ∨ "x" ∈ reservedKeys) ∧
    (publish wSub "t1" wMsg6 5 7).1 = true ∧
    alookupD (publish wSub "t1" wMsg6 5 7).2.topics "t1" []
      = alookupD (ensure_topic_exists wSub "t1").topics "t1" [] ++ [enrich wMsg6 "t1" 5 7] := by
  have h := c6_enrichment wSub "t1" wMsg6 5 7 "x"
  have hp := h.2.2.2.2.2 (by decide) (by decide) (by decide)
  exact ⟨h.2.1, h.2.2.2.1 (by decide), h.2.2.2.2.1, hp.1, hp.2⟩

/-- C10: a pending consume_one never registers in the active-consumers set
(only consume iterators do, as the contrast conjunct shows), so with zero
subscribers and zero consume iterators on the topic a publish issued while
consume_one is waiting returns failure and enqueues nothing, and the
consume_one call returns absent at its timeout. -/
theorem c10_consume_one_not_registered (st : BrokerState) (topic : String) (m : Msg)
    (t : Int) (oid tid : Nat)
    (hrun : st.running = true)
    (hsub : alookupD st.subscribers topic [] = [])
    (hcon : alookupD st.consumers topic [] = [])
    (hq : alookupD st.topics topic [] = []) :
    alookupD (consume_one st topic).2.consumers topic [] = [] ∧
    (consume_one st topic).1 = none ∧
    alookupD (consume_begin st topic tid).2.consumers topic [] = [tid] ∧
    (publish (consume_one st topic).2 topic m t oid).1 = false ∧
    alookupD (publish (consume_one st topic).2 topic m t oid).2.topics topic [] = [] ∧
    (consume_one (publish (consume_one st topic).2 topic m t oid).2 topic).1 = none := by
  have hrun2 : ¬(st.running = false) := by simp [hrun]
  have hq1 : alookupD (ensure_topic_exists st topic).topics topic [] = [] :=
    (ensure_queueD st topic).trans hq
  have hco : consume_one st topic = (none, ensure_topic_exists st topic) := by
    simp [consume_one, hrun2, hq1]
  have hs1 := ensure_subsD_empty st topic hsub
  have hc1 := ensure_consD_empty st topic hcon
  have hrunE : (ensure_topic_exists st topic).running = true := by
    rw [ensure_running]
    exact hrun
  have hpub := publish_no_readers_helper (ensure_topic_exists st topic) topic m t oid hs1 hc1
  have hst2 : (publish (ensure_topic_exists st topic) topic m t oid).2
      = ensure_topic_exists st topic := by
    rw [publish_no_readers_state _ topic m t oid hrunE hs1 hc1]
    exact ensure_of_isSome _ _ (ensure_topics_isSome st topic)
  refine ⟨?_, ?_, ?_, ?_, ?_, ?_⟩
  · rw [hco]
    exact hc1
  · rw [hco]
  · have hcb : consume_begin st topic tid =
        (true, { ensure_topic_exists st topic with
          consumers :=
            adictSet (ensure_topic_exists st topic).consumers topic
              (alookupD (ensure_topic_exists st topic).consumers topic [] ++ [tid]) }) := by
      simp [consume_begin, hrun2]
    rw [hcb]
    simp [alookupD, alookup_adictSet_self]
    simpa [alookupD] using hc1
  · rw [hco]
    exact hpub.1
  · rw [hco]
    rw [hst2]
    exact hq1
  · rw [hco, hst2]
    have hrun3 : ¬((ensure_topic_exists st topic).running = false) := by
      rw [hrunE]
      decide
    have hq3 : alookupD (ensure_topic_exists (ensure_topic_exists st topic) topic).topics
        topic [] = [] := (ensure_queueD _ topic).trans hq1
    simp [consume_one, hrun3, hq3]

/-- Witness for C10: on topic t1 of wRun, which nobody reads, consume_one
registers nothing, the interleaved publish fails and enqueues nothing, and
consume_one times out to none; a consume iterator (task 3) does register. -/
theorem c10_witness :
    alookupD (consume_one wRun "t1").2.consumers "t1" [] = [] ∧
    (consume_one wRun "t1").1 = none ∧
    alookupD (consume_begin wRun "t1" 3).2.consumers "t1" [] = [3] ∧
    (publish (consume_one wRun "t1").2 "t1" wMsg 1 2).1 = false ∧
    alookupD (publish (consume_one wRun "t1").2 "t1" wMsg 1 2).2.topics "t1" [] = [] ∧
    (consume_one (publish (consume_one wRun "t1").2 "t1" wMsg 1 2).2 "t1").1 = none :=
  c10_consume_one_not_registered wRun "t1" wMsg 1 2 3 (by decide) (by decide) (by decide)
    (by decide)

end A2A
